import Mathlib

/-!
Verification of the bipartite talent-flow ranking engine of the scrapeco
repository.  The definitions below are a shallow embedding of
`py_interfaces/neo4j_database.py` (`create_emp_company_projection`,
`birank_emp_company`, `_write_scores`) and of the BiRank endpoint of
`py_interfaces/api.py` (`BiRankRequest`, `run_birank`).  Machine floats are
modelled by real numbers; the Neo4j / GDS calls are abstracted as their
result values (streamed edge rows, node-id query results).
-/

set_option autoImplicit false

namespace Scrapeco

/-- Weight schemes accepted by `create_emp_company_projection`. -/
inductive WeightScheme
  | count
  | binary
deriving DecidableEq

/-- A raw career transition as stored in Neo4j: a `(:Transition)` node
reached from its owner by `HAS_TRANSITION` and carrying one `FROM_COMPANY`
and one `TO_COMPANY` relationship (see `store_transition`).  Fields are the
Neo4j node ids. -/
structure TransitionRec where
  person : ℕ
  fromCompany : ℕ
  toCompany : ℕ
deriving DecidableEq

/-- Rows produced by the relationship `MATCH` of
`create_emp_company_projection`: the pattern
`(p:Profile)-[:HAS_TRANSITION]->(:Transition)-[:FROM_COMPANY|TO_COMPANY]->(c:Company)`
matches every Transition node twice, once through its `FROM_COMPANY`
relationship and once through its `TO_COMPANY` relationship. -/
def matchRows (ts : List TransitionRec) : List (ℕ × ℕ) :=
  ts.flatMap fun t => [(t.person, t.fromCompany), (t.person, t.toCompany)]

/-- Edge rows handed to `gds.graph.project.cypher` (source id, target id,
weight).  Under `count` the clause `WITH id(p) AS source, id(c) AS target,
count(*) AS weight` aggregates the match rows by (source, target), one row
per distinct pair; under `binary` the clause is `WITH ..., 1 AS weight`,
which contains no aggregation function, so Cypher emits one row per match
row, each of weight 1. -/
def projectedEdges (scheme : WeightScheme) (ts : List TransitionRec) :
    List (ℕ × ℕ × ℕ) :=
  match scheme with
  | .count =>
      (matchRows ts).dedup.map fun e => (e.1, e.2, (matchRows ts).count e)
  | .binary =>
      (matchRows ts).map fun e => (e.1, e.2, 1)

/-- The `if s in ei and t in ci / elif t in ei and s in ci / else` branch of
the edge loop in `birank_emp_company`: the streamed relationship `(s, t)`
contributes a single 1.0 entry at matrix position `(ei[s], ci[t])`,
respectively `(ei[t], ci[s])`, and nothing otherwise.  `ei`/`ci` map a node
id to its enumeration index in the Profile / Company id list. -/
def edgeContrib (empIds compIds : List ℕ) (s t : ℕ) : Option (ℕ × ℕ) :=
  if s ∈ empIds ∧ t ∈ compIds then
    some (empIds.indexOf s, compIds.indexOf t)
  else if t ∈ empIds ∧ s ∈ compIds then
    some (empIds.indexOf t, compIds.indexOf s)
  else none

/-- Integer value of the adjacency entry `W[i, j]`: `sparse.coo_matrix`
sums the 1.0 contributions that land on the same (row, column) position. -/
def Wcount (edges : List (ℕ × ℕ)) (empIds compIds : List ℕ) (i j : ℕ) : ℕ :=
  (edges.filter fun e => edgeContrib empIds compIds e.1 e.2 = some (i, j)).length

/-- The bipartite adjacency matrix `W` of `birank_emp_company`
(`m = len(emp_ids)` rows, `n = len(comp_ids)` columns). -/
def Wmat (edges : List (ℕ × ℕ)) (empIds compIds : List ℕ)
    (i : Fin empIds.length) (j : Fin compIds.length) : ℝ :=
  (Wcount edges empIds compIds i j : ℝ)

/-- Row sums `Du = W.sum(axis=1)`. -/
noncomputable def rowDeg (edges : List (ℕ × ℕ)) (empIds compIds : List ℕ)
    (i : Fin empIds.length) : ℝ :=
  ∑ j, Wmat edges empIds compIds i j

/-- Column sums `Dp = W.sum(axis=0)`. -/
noncomputable def colDeg (edges : List (ℕ × ℕ)) (empIds compIds : List ℕ)
    (j : Fin compIds.length) : ℝ :=
  ∑ i, Wmat edges empIds compIds i j

/-- `np.power(x, -0.5)` for a positive real argument. -/
noncomputable def invSqrtPos (x : ℝ) : ℝ := (Real.sqrt x)⁻¹

/-- `Su = np.power(Du, -0.5, where=Du > 0)`.  numpy writes the result only
where the mask holds and, the output array being freshly allocated, leaves
the remaining positions uninitialized: the value found at a masked-out lane
is an arbitrary float, modelled by the parameter `gU`, not 0. -/
noncomputable def normU (edges : List (ℕ × ℕ)) (empIds compIds : List ℕ)
    (gU : Fin empIds.length → ℝ) (i : Fin empIds.length) : ℝ :=
  if 0 < rowDeg edges empIds compIds i then
    invSqrtPos (rowDeg edges empIds compIds i)
  else gU i

/-- `Sp = np.power(Dp, -0.5, where=Dp > 0)`, same uninitialized-lane
semantics as `normU`. -/
noncomputable def normP (edges : List (ℕ × ℕ)) (empIds compIds : List ℕ)
    (gP : Fin compIds.length → ℝ) (j : Fin compIds.length) : ℝ :=
  if 0 < colDeg edges empIds compIds j then
    invSqrtPos (colDeg edges empIds compIds j)
  else gP j

/-- `S = W.multiply(Su[:, None]).multiply(Sp)`.  Sparse elementwise
multiplication touches only the stored entries of `W`; where `W[i,j] = 0`
the product is a structural zero, which the real-valued product
`W[i,j] * Su[i] * Sp[j]` reproduces exactly (the garbage lanes of
`Su`/`Sp` are real numbers and are annihilated by the zero). -/
noncomputable def Smat (edges : List (ℕ × ℕ)) (empIds compIds : List ℕ)
    (gU : Fin empIds.length → ℝ) (gP : Fin compIds.length → ℝ)
    (i : Fin empIds.length) (j : Fin compIds.length) : ℝ :=
  Wmat edges empIds compIds i j * normU edges empIds compIds gU i *
    normP edges empIds compIds gP j

/-- Uniform restart vector `np.full(k, 1/k)`. -/
noncomputable def uniformVec (k : ℕ) : Fin k → ℝ := fun _ => 1 / (k : ℝ)

/-- One pass of the BiRank loop body: `p_next` is computed from the current
`u`, then `u_next` from `p_next`.  State is the pair `(u, p)`. -/
noncomputable def birankStep {m n : ℕ} (S : Fin m → Fin n → ℝ)
    (alpha beta : ℝ) (u0 : Fin m → ℝ) (p0 : Fin n → ℝ)
    (st : (Fin m → ℝ) × (Fin n → ℝ)) : (Fin m → ℝ) × (Fin n → ℝ) :=
  let pNext : Fin n → ℝ :=
    fun j => alpha * (∑ i, S i j * st.1 i) + (1 - alpha) * p0 j
  let uNext : Fin m → ℝ :=
    fun i => beta * (∑ j, S i j * pNext j) + (1 - beta) * u0 i
  (uNext, pNext)

/-- `np.abs(v).max()` (0 for the empty vector, where numpy would raise;
the engine only reaches this with at least one Profile and Company). -/
noncomputable def vecMaxAbs {k : ℕ} (v : Fin k → ℝ) : ℝ :=
  (List.ofFn v).foldr (fun x acc => max |x| acc) 0

/-- The `for _ in range(max_iter)` loop of `birank_emp_company`.  Each pass
computes the next iterates; if `max(np.abs(p_next - p).max(),
np.abs(u_next - u).max()) < tol` the loop `break`s — before the assignment
`p, u = p_next, u_next`, so the pre-iteration state is kept — otherwise it
assigns and continues. -/
noncomputable def birankLoop {m n : ℕ} (S : Fin m → Fin n → ℝ)
    (alpha beta : ℝ) (u0 : Fin m → ℝ) (p0 : Fin n → ℝ) (tol : ℝ) :
    ℕ → (Fin m → ℝ) × (Fin n → ℝ) → (Fin m → ℝ) × (Fin n → ℝ)
  | 0, st => st
  | k + 1, st =>
    let st1 := birankStep S alpha beta u0 p0 st
    if max (vecMaxAbs fun j => st1.2 j - st.2 j)
        (vecMaxAbs fun i => st1.1 i - st.1 i) < tol then st
    else birankLoop S alpha beta u0 p0 tol k st1

/-- The pure BiRank recurrence: `k` applications of the loop body to the
uniform restart state, ignoring the convergence test. -/
noncomputable def birankIterate (edges : List (ℕ × ℕ))
    (empIds compIds : List ℕ) (alpha beta : ℝ)
    (gU : Fin empIds.length → ℝ) (gP : Fin compIds.length → ℝ) (k : ℕ) :
    (Fin empIds.length → ℝ) × (Fin compIds.length → ℝ) :=
  (birankStep (Smat edges empIds compIds gU gP) alpha beta
      (uniformVec empIds.length) (uniformVec compIds.length))^[k]
    (uniformVec empIds.length, uniformVec compIds.length)

/-- Final `(u, p)` state returned by the iteration of
`birank_emp_company`. -/
noncomputable def birankFinal (edges : List (ℕ × ℕ))
    (empIds compIds : List ℕ) (alpha beta : ℝ) (maxIter : ℕ) (tol : ℝ)
    (gU : Fin empIds.length → ℝ) (gP : Fin compIds.length → ℝ) :
    (Fin empIds.length → ℝ) × (Fin compIds.length → ℝ) :=
  birankLoop (Smat edges empIds compIds gU gP) alpha beta
    (uniformVec empIds.length) (uniformVec compIds.length) tol maxIter
    (uniformVec empIds.length, uniformVec compIds.length)

/-- One row of the DataFrame built at the end of `birank_emp_company`. -/
structure RankRow where
  nodeId : ℕ
  score : ℝ
  label : String

/-- The DataFrame `pd.concat([emp_df, comp_df])`: all Profile rows, in the
enumeration order of the Profile id list, with the `u` scores, followed by
all Company rows with the `p` scores. -/
noncomputable def birankRows (edges : List (ℕ × ℕ))
    (empIds compIds : List ℕ) (alpha beta : ℝ) (maxIter : ℕ) (tol : ℝ)
    (gU : Fin empIds.length → ℝ) (gP : Fin compIds.length → ℝ) :
    List RankRow :=
  (List.ofFn fun i : Fin empIds.length =>
    RankRow.mk (empIds.get i)
      ((birankFinal edges empIds compIds alpha beta maxIter tol gU gP).1 i)
      "Profile") ++
  (List.ofFn fun j : Fin compIds.length =>
    RankRow.mk (compIds.get j)
      ((birankFinal edges empIds compIds alpha beta maxIter tol gU gP).2 j)
      "Company")

/-- `birank_emp_company`: raises `RuntimeError` (modelled as `Except.error`;
the source message quotes the graph name) when the projection streams no
relationships, otherwise computes and returns the ranking rows. -/
noncomputable def birank_emp_company (gname : String)
    (edges : List (ℕ × ℕ)) (empIds compIds : List ℕ) (alpha beta : ℝ)
    (maxIter : ℕ) (tol : ℝ) (gU : Fin empIds.length → ℝ)
    (gP : Fin compIds.length → ℝ) : Except String (List RankRow) :=
  if edges = [] then
    .error ("Graph " ++ gname ++ " has no relationships")
  else
    .ok (birankRows edges empIds compIds alpha beta maxIter tol gU gP)

/-- `_write_scores`: the two batched `UNWIND ... SET` queries, one per
partition, each written as (node property name, list of (node id, score)).
The Profile scores go under `<prefix>_prof`, the Company scores under
`<prefix>_comp`. -/
def writeScores (rows : List RankRow) (pfx : String) :
    List (String × List (ℕ × ℝ)) :=
  [(pfx ++ "_prof",
      (rows.filter fun r => r.label = "Profile").map fun r =>
        (r.nodeId, r.score)),
   (pfx ++ "_comp",
      (rows.filter fun r => r.label = "Company").map fun r =>
        (r.nodeId, r.score))]

/-- The Pydantic request model `BiRankRequest` of `api.py`: plain typed
fields with defaults, carrying no range constraint on any field. -/
structure BiRankRequest where
  graph_name : String := "empCompany"
  alpha : ℝ := 85 / 100
  beta : ℝ := 85 / 100
  max_iter : ℕ := 20
  write_prefix : Option String := none

/-- Default convergence tolerance of `birank_emp_company` (`tol=1e-6`),
used by the endpoint, which passes no `tol`. -/
noncomputable def defaultTol : ℝ := 1 / 1000000

/-- The `/api/graph/birank` endpoint body (`run_birank` in `api.py`): the
request fields are forwarded to `birank_emp_company` unchecked — no
validation of `alpha` / `beta` happens anywhere on the way. -/
noncomputable def run_birank (req : BiRankRequest) (edges : List (ℕ × ℕ))
    (empIds compIds : List ℕ) (gU : Fin empIds.length → ℝ)
    (gP : Fin compIds.length → ℝ) : Except String (List RankRow) :=
  birank_emp_company req.graph_name edges empIds compIds req.alpha req.beta
    req.max_iter defaultTol gU gP

/-- Modelled from the spec: the delivery order it requires for ranking
results — descending by score, ties broken by ascending node id. -/
def specRankOrder (a b : RankRow) : Prop :=
  b.score < a.score ∨ (a.score = b.score ∧ a.nodeId ≤ b.nodeId)

/-- Modelled from the spec: the number of streamed relationships whose two
endpoints are person `i` and company `j`, in either direction. -/
def specPairCount (edges : List (ℕ × ℕ)) (empIds compIds : List ℕ)
    (i : Fin empIds.length) (j : Fin compIds.length) : ℕ :=
  (edges.filter fun e =>
    (e.1 = empIds.get i ∧ e.2 = compIds.get j) ∨
    (e.2 = empIds.get i ∧ e.1 = compIds.get j)).length

/-- Projected edge stream of the two-person, three-company scenario of the
spec (persons 1, 2; companies 11, 12, 13; projected edges P1–C1, P1–C2,
P2–C2, P2–C3, each streamed once). -/
def edges5 : List (ℕ × ℕ) := [(1, 11), (1, 12), (2, 12), (2, 13)]

/-- Profile node ids of the two-person, three-company scenario. -/
def emp5 : List ℕ := [1, 2]

/-- Company node ids of the two-person, three-company scenario. -/
def comp5 : List ℕ := [11, 12, 13]

/-! ### Helper lemmas -/

lemma abs_le_foldr_max (x : ℝ) (l : List ℝ) (hx : x ∈ l) :
    |x| ≤ l.foldr (fun y acc => max |y| acc) 0 := by
  induction l with
  | nil => cases hx
  | cons a l ih =>
    rcases List.mem_cons.mp hx with rfl | h
    · exact le_max_left _ _
    · exact le_trans (ih h) (le_max_right _ _)

lemma abs_le_vecMaxAbs {k : ℕ} (v : Fin k → ℝ) (j : Fin k) :
    |v j| ≤ vecMaxAbs v :=
  abs_le_foldr_max _ _ ((List.mem_ofFn v (v j)).mpr ⟨j, rfl⟩)

lemma birankStep_apply {m n : ℕ} (S : Fin m → Fin n → ℝ) (alpha beta : ℝ)
    (u0 : Fin m → ℝ) (p0 : Fin n → ℝ) (st : (Fin m → ℝ) × (Fin n → ℝ)) :
    birankStep S alpha beta u0 p0 st =
      (fun i => beta *
          (∑ j, S i j *
            (alpha * (∑ i', S i' j * st.1 i') + (1 - alpha) * p0 j)) +
          (1 - beta) * u0 i,
       fun j => alpha * (∑ i, S i j * st.1 i) + (1 - alpha) * p0 j) := rfl

lemma birankLoop_break {m n : ℕ} (S : Fin m → Fin n → ℝ) (alpha beta : ℝ)
    (u0 : Fin m → ℝ) (p0 : Fin n → ℝ) (tol : ℝ) (k : ℕ)
    (st : (Fin m → ℝ) × (Fin n → ℝ))
    (hconv : max
        (vecMaxAbs fun j => (birankStep S alpha beta u0 p0 st).2 j - st.2 j)
        (vecMaxAbs fun i => (birankStep S alpha beta u0 p0 st).1 i - st.1 i)
        < tol) :
    birankLoop S alpha beta u0 p0 tol (k + 1) st = st := by
  rw [birankLoop]
  exact if_pos hconv

lemma birankLoop_go {m n : ℕ} (S : Fin m → Fin n → ℝ) (alpha beta : ℝ)
    (u0 : Fin m → ℝ) (p0 : Fin n → ℝ) (tol : ℝ) (k : ℕ)
    (st : (Fin m → ℝ) × (Fin n → ℝ))
    (hconv : ¬ max
        (vecMaxAbs fun j => (birankStep S alpha beta u0 p0 st).2 j - st.2 j)
        (vecMaxAbs fun i => (birankStep S alpha beta u0 p0 st).1 i - st.1 i)
        < tol) :
    birankLoop S alpha beta u0 p0 tol (k + 1) st =
      birankLoop S alpha beta u0 p0 tol k (birankStep S alpha beta u0 p0 st) := by
  rw [birankLoop]
  exact if_neg hconv

lemma birankLoop_inv {m n : ℕ} (S : Fin m → Fin n → ℝ) (alpha beta : ℝ)
    (u0 : Fin m → ℝ) (p0 : Fin n → ℝ) (tol : ℝ)
    (Inv : (Fin m → ℝ) × (Fin n → ℝ) → Prop)
    (hstep : ∀ st, Inv st → Inv (birankStep S alpha beta u0 p0 st)) :
    ∀ (k : ℕ) (st), Inv st → Inv (birankLoop S alpha beta u0 p0 tol k st) := by
  intro k
  induction k with
  | zero => intro st h; exact h
  | succ k ih =>
    intro st h
    by_cases hc : max
        (vecMaxAbs fun j => (birankStep S alpha beta u0 p0 st).2 j - st.2 j)
        (vecMaxAbs fun i => (birankStep S alpha beta u0 p0 st).1 i - st.1 i)
        < tol
    · rw [birankLoop_break S alpha beta u0 p0 tol k st hc]; exact h
    · rw [birankLoop_go S alpha beta u0 p0 tol k st hc]
      exact ih _ (hstep st h)

/-! ### C1 -/

/-- C1 counterexample: on an empty projection (no streamed relationships)
`birank_emp_company` raises `RuntimeError` instead of returning the uniform
restart vectors. -/
theorem C1_counterexample :
    birank_emp_company "empCompany" [] [] [] (85 / 100) (85 / 100) 20
        defaultTol (fun _ => 0) (fun _ => 0) =
      Except.error "Graph empCompany has no relationships" := by
  rfl

/-- C1 (amended): for every projection whose relationship stream is empty,
`birank_emp_company` raises `RuntimeError` (`Graph ... has no
relationships`) rather than returning any score vectors. -/
theorem C1_empty_projection_raises (gname : String)
    (empIds compIds : List ℕ) (alpha beta : ℝ) (maxIter : ℕ) (tol : ℝ)
    (gU : Fin empIds.length → ℝ) (gP : Fin compIds.length → ℝ) :
    birank_emp_company gname [] empIds compIds alpha beta maxIter tol gU gP =
      Except.error ("Graph " ++ gname ++ " has no relationships") := by
  rfl

/-! ### C6 -/

/-- C6: under the `binary` weight scheme a person–company pair connected by
two qualifying transitions yields two parallel projected edges of weight 1,
not a single clamped edge — here person 1 moved out of company 10 twice,
and the pair (1, 10) receives two edge rows. -/
theorem C6_binary_emits_parallel_edges :
    ((projectedEdges WeightScheme.binary
        [⟨1, 10, 11⟩, ⟨1, 10, 12⟩]).filter fun e =>
          e.1 = 1 ∧ e.2.1 = 10).length = 2 := by
  decide

/-! ### C9 -/

/-- C9 counterexample: with write prefix `br` the two batched writes use the
node properties `br_prof` and `br_comp`; no property named `br_person` (or
`br_company`) is written. -/
theorem C9_counterexample :
    (writeScores (birankRows [(5, 3)] [5] [3] (85 / 100) (85 / 100) 20
        defaultTol (fun _ => 0) (fun _ => 0)) "br").map Prod.fst =
      ["br_prof", "br_comp"] ∧
    "br_person" ∉ (writeScores (birankRows [(5, 3)] [5] [3] (85 / 100)
        (85 / 100) 20 defaultTol (fun _ => 0) (fun _ => 0)) "br").map
        Prod.fst := by
  constructor
  · rfl
  · decide

/-- C9 (amended): for every BiRank run in write mode with prefix `pfx`, the
person score vector `u` is persisted under the node property `pfx_prof` and
the company score vector `p` under `pfx_comp`, one batched write per
partition. -/
theorem C9_write_properties (edges : List (ℕ × ℕ))
    (empIds compIds : List ℕ) (alpha beta : ℝ) (maxIter : ℕ) (tol : ℝ)
    (gU : Fin empIds.length → ℝ) (gP : Fin compIds.length → ℝ)
    (pfx : String) :
    writeScores (birankRows edges empIds compIds alpha beta maxIter tol gU gP)
        pfx =
      [(pfx ++ "_prof", List.ofFn fun i =>
          (empIds.get i,
           (birankFinal edges empIds compIds alpha beta maxIter tol gU gP).1 i)),
       (pfx ++ "_comp", List.ofFn fun j =>
          (compIds.get j,
           (birankFinal edges empIds compIds alpha beta maxIter tol gU gP).2 j))] := by
  unfold writeScores birankRows
  rw [List.filter_append, List.filter_append, List.map_append, List.map_append]
  have hp1 : ∀ (l : List ℕ) (v : Fin l.length → ℝ) (lbl : String),
      (List.ofFn fun i => RankRow.mk (l.get i) (v i) lbl).filter
        (fun r => r.label = lbl) =
      List.ofFn fun i => RankRow.mk (l.get i) (v i) lbl := by
    intro l v lbl
    apply List.filter_eq_self.mpr
    intro a ha
    obtain ⟨i, rfl⟩ := (List.mem_ofFn _ _).mp ha
    simp
  have hp2 : ∀ (l : List ℕ) (v : Fin l.length → ℝ) (lbl lbl' : String),
      lbl ≠ lbl' →
      (List.ofFn fun i => RankRow.mk (l.get i) (v i) lbl).filter
        (fun r => r.label = lbl') = [] := by
    intro l v lbl lbl' hne
    apply List.filter_eq_nil_iff.mpr
    intro a ha
    obtain ⟨i, rfl⟩ := (List.mem_ofFn _ _).mp ha
    simp [hne]
  rw [hp1, hp1, hp2 _ _ _ _ (by decide), hp2 _ _ _ _ (by decide),
    List.map_nil, List.append_nil, List.nil_append, List.map_ofFn,
    List.map_ofFn]
  rfl

/-! ### Evaluation helpers: the 1-person / 1-company instance
(person id 5, company id 3, one streamed edge (5, 3)) -/

lemma invSqrtPos_one : invSqrtPos 1 = 1 := by
  simp [invSqrtPos]

lemma Wmat_single (i j : Fin 1) : Wmat [(5, 3)] [5] [3] i j = 1 := by
  have hi : i = 0 := Subsingleton.elim _ _
  have hj : j = 0 := Subsingleton.elim _ _
  subst hi; subst hj
  have h : Wcount [(5, 3)] [5] [3] ((0 : Fin 1) : ℕ) ((0 : Fin 1) : ℕ) = 1 := by
    decide
  simp only [Wmat, h]
  norm_num

lemma rowDeg_single (i : Fin 1) : rowDeg [(5, 3)] [5] [3] i = 1 := by
  show (∑ j : Fin 1, Wmat [(5, 3)] [5] [3] i j) = 1
  rw [Fin.sum_univ_one, Wmat_single]

lemma colDeg_single (j : Fin 1) : colDeg [(5, 3)] [5] [3] j = 1 := by
  show (∑ i : Fin 1, Wmat [(5, 3)] [5] [3] i j) = 1
  rw [Fin.sum_univ_one, Wmat_single]

lemma normU_single (gU : Fin 1 → ℝ) (i : Fin 1) :
    normU [(5, 3)] [5] [3] gU i = 1 := by
  unfold normU
  rw [rowDeg_single, if_pos (by norm_num : (0 : ℝ) < 1), invSqrtPos_one]

lemma normP_single (gP : Fin 1 → ℝ) (j : Fin 1) :
    normP [(5, 3)] [5] [3] gP j = 1 := by
  unfold normP
  rw [colDeg_single, if_pos (by norm_num : (0 : ℝ) < 1), invSqrtPos_one]

lemma Smat_single (gU gP : Fin 1 → ℝ) (i j : Fin 1) :
    Smat [(5, 3)] [5] [3] gU gP i j = 1 := by
  unfold Smat
  rw [Wmat_single, normU_single, normP_single]
  norm_num

lemma birankStep_one (S : Fin 1 → Fin 1 → ℝ) (hS : ∀ i j, S i j = 1)
    (alpha beta : ℝ) :
    birankStep S alpha beta (fun _ => 1) (fun _ => 1)
        (fun _ => 1, fun _ => 1) =
      ((fun _ => 1 : Fin 1 → ℝ), (fun _ => 1 : Fin 1 → ℝ)) := by
  rw [birankStep_apply]
  refine Prod.ext ?_ ?_ <;> funext x <;>
    simp only [hS, Fin.sum_univ_one] <;> ring

lemma birankLoop_one (S : Fin 1 → Fin 1 → ℝ) (hS : ∀ i j, S i j = 1)
    (alpha beta tol : ℝ) (htol : 0 < tol) (k : ℕ) :
    birankLoop S alpha beta (fun _ => 1) (fun _ => 1) tol (k + 1)
        (fun _ => 1, fun _ => 1) =
      ((fun _ => 1 : Fin 1 → ℝ), (fun _ => 1 : Fin 1 → ℝ)) := by
  apply birankLoop_break
  rw [birankStep_one S hS alpha beta]
  simpa [vecMaxAbs] using htol

lemma birankFinal_single (alpha beta tol : ℝ) (htol : 0 < tol) (k : ℕ)
    (gU gP : Fin 1 → ℝ) :
    birankFinal [(5, 3)] [5] [3] alpha beta (k + 1) tol gU gP =
      ((fun _ => 1 : Fin 1 → ℝ), (fun _ => 1 : Fin 1 → ℝ)) := by
  unfold birankFinal
  have hu : uniformVec (List.length ([5] : List ℕ)) = (fun _ => (1 : ℝ)) := by
    funext x
    simp [uniformVec]
  have hp : uniformVec (List.length ([3] : List ℕ)) = (fun _ => (1 : ℝ)) := by
    funext x
    simp [uniformVec]
  rw [hu, hp]
  exact birankLoop_one _ (Smat_single gU gP) alpha beta tol htol k

lemma birankRows_single (alpha beta tol : ℝ) (htol : 0 < tol) (k : ℕ)
    (gU gP : Fin 1 → ℝ) :
    birankRows [(5, 3)] [5] [3] alpha beta (k + 1) tol gU gP =
      [⟨5, 1, "Profile"⟩, ⟨3, 1, "Company"⟩] := by
  unfold birankRows
  rw [birankFinal_single alpha beta tol htol k gU gP]
  rfl

/-! ### C7 -/

/-- C7 counterexample: a BiRank request with `alpha = 2 ∉ (0, 1]` is not
rejected by any validation; the endpoint streams the edges, runs the full
iteration with `alpha = 2` and returns the computed scores. -/
theorem C7_counterexample :
    ((2 : ℝ) ∉ Set.Ioc (0 : ℝ) 1) ∧
    run_birank ⟨"empCompany", 2, 85 / 100, 20, none⟩ [(5, 3)] [5] [3]
        (fun _ => 0) (fun _ => 0) =
      Except.ok [⟨5, 1, "Profile"⟩, ⟨3, 1, "Company"⟩] := by
  constructor
  · rw [Set.mem_Ioc]
    norm_num
  · have h : birankRows [(5, 3)] [5] [3] 2 (85 / 100) 20 defaultTol
        (fun _ => 0) (fun _ => 0) = [⟨5, 1, "Profile"⟩, ⟨3, 1, "Company"⟩] := by
      rw [show (20 : ℕ) = 19 + 1 by norm_num]
      exact birankRows_single 2 (85 / 100) defaultTol
        (by norm_num [defaultTol]) 19 _ _
    show birank_emp_company "empCompany" [(5, 3)] [5] [3] 2 (85 / 100) 20
        defaultTol (fun _ => 0) (fun _ => 0) = _
    unfold birank_emp_company
    rw [if_neg (by simp : ¬([((5 : ℕ), (3 : ℕ))] = [])), h]

/-- C7 (amended): no range validation exists for `alpha`/`beta`: for every
BiRank request whose `alpha` lies outside (0, 1], as long as the projection
streams at least one relationship, the endpoint performs the whole
computation and returns its result instead of rejecting the request. -/
theorem C7_out_of_range_alpha_not_rejected (req : BiRankRequest)
    (edges : List (ℕ × ℕ)) (empIds compIds : List ℕ)
    (gU : Fin empIds.length → ℝ) (gP : Fin compIds.length → ℝ)
    (halpha : req.alpha ∉ Set.Ioc (0 : ℝ) 1) (hedges : edges ≠ []) :
    ∃ rows, run_birank req edges empIds compIds gU gP = Except.ok rows := by
  refine ⟨birankRows edges empIds compIds req.alpha req.beta req.max_iter
    defaultTol gU gP, ?_⟩
  unfold run_birank birank_emp_company
  rw [if_neg hedges]

/-- C7 witness: the amended theorem applied at `alpha = 2` on the singleton
graph. -/
theorem C7_out_of_range_alpha_not_rejected_witness :
    ((BiRankRequest.mk "empCompany" 2 (85 / 100) 20 none).alpha ∉
        Set.Ioc (0 : ℝ) 1) ∧
    ([((5 : ℕ), (3 : ℕ))] ≠ ([] : List (ℕ × ℕ))) ∧
    ∃ rows, run_birank ⟨"empCompany", 2, 85 / 100, 20, none⟩ [(5, 3)] [5] [3]
        (fun _ => 0) (fun _ => 0) = Except.ok rows :=
  ⟨by rw [Set.mem_Ioc]; norm_num, by simp,
   C7_out_of_range_alpha_not_rejected ⟨"empCompany", 2, 85 / 100, 20, none⟩
     [(5, 3)] [5] [3] (fun _ => 0) (fun _ => 0)
     (by rw [Set.mem_Ioc]; norm_num) (by simp)⟩

/-! ### C8 -/

/-- C8 counterexample: in stream mode the BiRank rows come back in
construction order — Profile rows first, then Company rows — not in the
spec's order (descending score, ties by ascending id): on the singleton
graph both scores are 1 and the row of node 5 precedes the row of node 3,
violating the ascending-id tie-break. -/
theorem C8_counterexample :
    birankRows [(5, 3)] [5] [3] (85 / 100) (85 / 100) 20 defaultTol
        (fun _ => 0) (fun _ => 0) =
      [⟨5, 1, "Profile"⟩, ⟨3, 1, "Company"⟩] ∧
    ¬ List.Sorted specRankOrder
        (birankRows [(5, 3)] [5] [3] (85 / 100) (85 / 100) 20 defaultTol
          (fun _ => 0) (fun _ => 0)) := by
  have h : birankRows [(5, 3)] [5] [3] (85 / 100) (85 / 100) 20 defaultTol
      (fun _ => 0) (fun _ => 0) =
      [⟨5, 1, "Profile"⟩, ⟨3, 1, "Company"⟩] := by
    rw [show (20 : ℕ) = 19 + 1 by norm_num]
    exact birankRows_single (85 / 100) (85 / 100) defaultTol
      (by norm_num [defaultTol]) 19 _ _
  refine ⟨h, ?_⟩
  rw [h]
  intro hs
  have hpair := (List.sorted_cons.mp hs).1 ⟨3, 1, "Company"⟩ (by simp)
  rcases hpair with h1 | ⟨h2, h3⟩
  · exact absurd h1 (lt_irrefl 1)
  · exact absurd h3 (by norm_num)

/-- C8 (amended): stream-mode BiRank results are returned in construction
order — all person rows in person-id enumeration order followed by all
company rows in company-id enumeration order — not sorted by score. -/
theorem C8_rows_in_partition_order (edges : List (ℕ × ℕ))
    (empIds compIds : List ℕ) (alpha beta : ℝ) (maxIter : ℕ) (tol : ℝ)
    (gU : Fin empIds.length → ℝ) (gP : Fin compIds.length → ℝ) :
    (birankRows edges empIds compIds alpha beta maxIter tol gU gP).map
        RankRow.nodeId = empIds ++ compIds := by
  unfold birankRows
  rw [List.map_append, List.map_ofFn, List.map_ofFn]
  show (List.ofFn empIds.get) ++ (List.ofFn compIds.get) = _
  rw [List.ofFn_get, List.ofFn_get]

/-! ### Evaluation helpers: one person (id 10), companies 20 and 21, one
streamed edge (10, 20); company 21 is isolated -/

lemma vecMaxAbs_one (v : Fin 1 → ℝ) : vecMaxAbs v = max |v 0| 0 := by
  simp [vecMaxAbs]

lemma vecMaxAbs_two (v : Fin 2 → ℝ) :
    vecMaxAbs v = max |v 0| (max |v 1| 0) := by
  simp [vecMaxAbs]

lemma vecMaxAbs_three (v : Fin 3 → ℝ) :
    vecMaxAbs v = max |v 0| (max |v 1| (max |v 2| 0)) := by
  simp [vecMaxAbs]

lemma birankStep_fst_apply {m n : ℕ} (S : Fin m → Fin n → ℝ)
    (alpha beta : ℝ) (u0 : Fin m → ℝ) (p0 : Fin n → ℝ)
    (st : (Fin m → ℝ) × (Fin n → ℝ)) (i : Fin m) :
    (birankStep S alpha beta u0 p0 st).1 i =
      beta * (∑ j, S i j * (birankStep S alpha beta u0 p0 st).2 j) +
        (1 - beta) * u0 i := rfl

lemma birankStep_snd_apply {m n : ℕ} (S : Fin m → Fin n → ℝ)
    (alpha beta : ℝ) (u0 : Fin m → ℝ) (p0 : Fin n → ℝ)
    (st : (Fin m → ℝ) × (Fin n → ℝ)) (j : Fin n) :
    (birankStep S alpha beta u0 p0 st).2 j =
      alpha * (∑ i, S i j * st.1 i) + (1 - alpha) * p0 j := rfl

lemma Wmat_e2_col0 (i : Fin 1) :
    Wmat [(10, 20)] [10] [20, 21] i (0 : Fin 2) = 1 := by
  have hi : i = 0 := Subsingleton.elim _ _
  subst hi
  have h : Wcount [(10, 20)] [10] [20, 21] ((0 : Fin 1) : ℕ)
      ((0 : Fin 2) : ℕ) = 1 := by decide
  simp only [Wmat, h]
  norm_num

lemma Wmat_e2_col1 (i : Fin 1) :
    Wmat [(10, 20)] [10] [20, 21] i (1 : Fin 2) = 0 := by
  have hi : i = 0 := Subsingleton.elim _ _
  subst hi
  have h : Wcount [(10, 20)] [10] [20, 21] ((0 : Fin 1) : ℕ)
      ((1 : Fin 2) : ℕ) = 0 := by decide
  simp only [Wmat, h]
  norm_num

lemma rowDeg_e2 (i : Fin 1) : rowDeg [(10, 20)] [10] [20, 21] i = 1 := by
  show (∑ j : Fin 2, Wmat [(10, 20)] [10] [20, 21] i j) = 1
  rw [Fin.sum_univ_two, Wmat_e2_col0, Wmat_e2_col1]
  norm_num

lemma colDeg_e2_1 : colDeg [(10, 20)] [10] [20, 21] (1 : Fin 2) = 0 := by
  show (∑ i : Fin 1, Wmat [(10, 20)] [10] [20, 21] i (1 : Fin 2)) = 0
  rw [Fin.sum_univ_one, Wmat_e2_col1]

lemma colDeg_e2_0 : colDeg [(10, 20)] [10] [20, 21] (0 : Fin 2) = 1 := by
  show (∑ i : Fin 1, Wmat [(10, 20)] [10] [20, 21] i (0 : Fin 2)) = 1
  rw [Fin.sum_univ_one, Wmat_e2_col0]

lemma normU_e2 (gU : Fin 1 → ℝ) (i : Fin 1) :
    normU [(10, 20)] [10] [20, 21] gU i = 1 := by
  unfold normU
  rw [rowDeg_e2, if_pos (by norm_num : (0 : ℝ) < 1), invSqrtPos_one]

lemma normP_e2_0 (gP : Fin 2 → ℝ) :
    normP [(10, 20)] [10] [20, 21] gP (0 : Fin 2) = 1 := by
  unfold normP
  rw [colDeg_e2_0, if_pos (by norm_num : (0 : ℝ) < 1), invSqrtPos_one]

lemma Smat_e2_col0 (gU : Fin 1 → ℝ) (gP : Fin 2 → ℝ) (i : Fin 1) :
    Smat [(10, 20)] [10] [20, 21] gU gP i (0 : Fin 2) = 1 := by
  unfold Smat
  rw [Wmat_e2_col0, normU_e2, normP_e2_0]
  norm_num

lemma Smat_e2_col1 (gU : Fin 1 → ℝ) (gP : Fin 2 → ℝ) (i : Fin 1) :
    Smat [(10, 20)] [10] [20, 21] gU gP i (1 : Fin 2) = 0 := by
  unfold Smat
  rw [Wmat_e2_col1]
  ring

lemma step_e2_p0 (gU : Fin 1 → ℝ) (gP : Fin 2 → ℝ) :
    (birankStep (Smat [(10, 20)] [10] [20, 21] gU gP) (1 / 2) (1 / 2)
        (uniformVec 1) (uniformVec 2)
        (uniformVec 1, uniformVec 2)).2 (0 : Fin 2) = 3 / 4 := by
  show (1 : ℝ) / 2 *
      (∑ i : Fin 1, Smat [(10, 20)] [10] [20, 21] gU gP i (0 : Fin 2) *
        (uniformVec 1, uniformVec 2).1 i) +
      (1 - 1 / 2) * uniformVec 2 (0 : Fin 2) = 3 / 4
  rw [Fin.sum_univ_one, Smat_e2_col0]
  norm_num [uniformVec]

lemma step_e2_p1 (gU : Fin 1 → ℝ) (gP : Fin 2 → ℝ) :
    (birankStep (Smat [(10, 20)] [10] [20, 21] gU gP) (1 / 2) (1 / 2)
        (uniformVec 1) (uniformVec 2)
        (uniformVec 1, uniformVec 2)).2 (1 : Fin 2) = 1 / 4 := by
  show (1 : ℝ) / 2 *
      (∑ i : Fin 1, Smat [(10, 20)] [10] [20, 21] gU gP i (1 : Fin 2) *
        (uniformVec 1, uniformVec 2).1 i) +
      (1 - 1 / 2) * uniformVec 2 (1 : Fin 2) = 1 / 4
  rw [Fin.sum_univ_one, Smat_e2_col1]
  norm_num [uniformVec]

lemma step_e2_u0 (gU : Fin 1 → ℝ) (gP : Fin 2 → ℝ) :
    (birankStep (Smat [(10, 20)] [10] [20, 21] gU gP) (1 / 2) (1 / 2)
        (uniformVec 1) (uniformVec 2)
        (uniformVec 1, uniformVec 2)).1 (0 : Fin 1) = 7 / 8 := by
  show (1 : ℝ) / 2 *
      (∑ j : Fin 2, Smat [(10, 20)] [10] [20, 21] gU gP (0 : Fin 1) j *
        (birankStep (Smat [(10, 20)] [10] [20, 21] gU gP) (1 / 2) (1 / 2)
          (uniformVec 1) (uniformVec 2)
          (uniformVec 1, uniformVec 2)).2 j) +
      (1 - 1 / 2) * uniformVec 1 (0 : Fin 1) = 7 / 8
  rw [Fin.sum_univ_two, step_e2_p0, step_e2_p1, Smat_e2_col0, Smat_e2_col1]
  norm_num [uniformVec]

lemma foldr_max_lt (c : ℝ) (hc : 0 < c) (l : List ℝ)
    (h : ∀ x ∈ l, |x| < c) :
    l.foldr (fun y acc => max |y| acc) 0 < c := by
  induction l with
  | nil => simpa using hc
  | cons a l ih =>
    exact max_lt (h a (by simp)) (ih fun x hx => h x (by simp [hx]))

lemma vecMaxAbs_lt {k : ℕ} (v : Fin k → ℝ) (c : ℝ) (hc : 0 < c)
    (h : ∀ x, |v x| < c) : vecMaxAbs v < c := by
  apply foldr_max_lt c hc
  intro x hx
  obtain ⟨i, rfl⟩ := (List.mem_ofFn _ _).mp hx
  exact h i

lemma cond_e2 (gU : Fin 1 → ℝ) (gP : Fin 2 → ℝ) :
    max (vecMaxAbs fun j =>
        (birankStep (Smat [(10, 20)] [10] [20, 21] gU gP) (1 / 2) (1 / 2)
            (uniformVec 1) (uniformVec 2)
            (uniformVec 1, uniformVec 2)).2 j -
          (uniformVec 1, uniformVec 2).2 j)
      (vecMaxAbs fun i =>
        (birankStep (Smat [(10, 20)] [10] [20, 21] gU gP) (1 / 2) (1 / 2)
            (uniformVec 1) (uniformVec 2)
            (uniformVec 1, uniformVec 2)).1 i -
          (uniformVec 1, uniformVec 2).1 i) < 1 := by
  show max (vecMaxAbs fun j : Fin 2 =>
        (birankStep (Smat [(10, 20)] [10] [20, 21] gU gP) (1 / 2) (1 / 2)
            (uniformVec 1) (uniformVec 2)
            (uniformVec 1, uniformVec 2)).2 j -
          (uniformVec 1, uniformVec 2).2 j)
      (vecMaxAbs fun i : Fin 1 =>
        (birankStep (Smat [(10, 20)] [10] [20, 21] gU gP) (1 / 2) (1 / 2)
            (uniformVec 1) (uniformVec 2)
            (uniformVec 1, uniformVec 2)).1 i -
          (uniformVec 1, uniformVec 2).1 i) < 1
  rw [vecMaxAbs_two, vecMaxAbs_one]
  dsimp only
  rw [step_e2_p0, step_e2_p1, step_e2_u0]
  simp only [max_lt_iff, abs_lt]
  norm_num [uniformVec]

/-! ### C3 -/

/-- C3 counterexample: on the instance with one person (id 10) and
companies 20, 21 (edge only to 20), with `alpha = beta = 1/2` and
`tol = 1`, the convergence test succeeds at the very first iteration, the
newly computed company iterate `p_next[20] = 3/4`, yet the loop returns the
previous iterate `p[20] = 1/2`: the `break` happens before the assignment,
so the returned vectors are not `p_next, u_next`. -/
theorem C3_counterexample :
    (birankStep (Smat [(10, 20)] [10] [20, 21] (fun _ => 0) (fun _ => 0))
        (1 / 2) (1 / 2) (uniformVec 1) (uniformVec 2)
        (uniformVec 1, uniformVec 2)).2 (0 : Fin 2) = 3 / 4 ∧
    max (vecMaxAbs fun j =>
        (birankStep (Smat [(10, 20)] [10] [20, 21] (fun _ => 0)
            (fun _ => 0)) (1 / 2) (1 / 2)
            (uniformVec 1) (uniformVec 2)
            (uniformVec 1, uniformVec 2)).2 j -
          (uniformVec 1, uniformVec 2).2 j)
      (vecMaxAbs fun i =>
        (birankStep (Smat [(10, 20)] [10] [20, 21] (fun _ => 0)
            (fun _ => 0)) (1 / 2) (1 / 2)
            (uniformVec 1) (uniformVec 2)
            (uniformVec 1, uniformVec 2)).1 i -
          (uniformVec 1, uniformVec 2).1 i) < 1 ∧
    (birankFinal [(10, 20)] [10] [20, 21] (1 / 2) (1 / 2) 20 1 (fun _ => 0)
        (fun _ => 0)).2 (0 : Fin 2) = 1 / 2 := by
  refine ⟨step_e2_p0 _ _, cond_e2 _ _, ?_⟩
  have hfin : birankFinal [(10, 20)] [10] [20, 21] (1 / 2) (1 / 2) 20 1
      (fun _ => 0) (fun _ => 0) = (uniformVec 1, uniformVec 2) := by
    unfold birankFinal
    rw [show (20 : ℕ) = 19 + 1 by norm_num]
    exact birankLoop_break _ _ _ _ _ _ _ _ (cond_e2 _ _)
  rw [hfin]
  norm_num [uniformVec]

/-- C3 (amended): whenever the convergence test succeeds at some iteration
within the budget, the loop breaks before the assignment
`p, u = p_next, u_next`, so the state returned is the previous iterates
`(u, p)`, not the newly computed `(u_next, p_next)`. -/
theorem C3_break_returns_previous_iterates {m n : ℕ}
    (S : Fin m → Fin n → ℝ) (alpha beta : ℝ) (u0 : Fin m → ℝ)
    (p0 : Fin n → ℝ) (tol : ℝ) (k : ℕ) (st : (Fin m → ℝ) × (Fin n → ℝ))
    (hconv : max
        (vecMaxAbs fun j => (birankStep S alpha beta u0 p0 st).2 j - st.2 j)
        (vecMaxAbs fun i => (birankStep S alpha beta u0 p0 st).1 i - st.1 i)
        < tol) :
    birankLoop S alpha beta u0 p0 tol (k + 1) st = st :=
  birankLoop_break S alpha beta u0 p0 tol k st hconv

/-- C3 witness: the amended theorem applied to the all-zero 1×1 system. -/
theorem C3_break_returns_previous_iterates_witness :
    (max (vecMaxAbs fun j =>
        (birankStep (fun _ _ : Fin 1 => (0 : ℝ)) 0 0 (fun _ => 0)
          (fun _ => 0) (fun _ => 0, fun _ => 0)).2 j -
        ((fun _ => 0, fun _ => 0) : (Fin 1 → ℝ) × (Fin 1 → ℝ)).2 j)
      (vecMaxAbs fun i =>
        (birankStep (fun _ _ : Fin 1 => (0 : ℝ)) 0 0 (fun _ => 0)
          (fun _ => 0) (fun _ => 0, fun _ => 0)).1 i -
        ((fun _ => 0, fun _ => 0) : (Fin 1 → ℝ) × (Fin 1 → ℝ)).1 i) < 1) ∧
    birankLoop (fun _ _ : Fin 1 => (0 : ℝ)) 0 0 (fun _ => 0) (fun _ => 0) 1
        (0 + 1) (fun _ => 0, fun _ => 0) = (fun _ => 0, fun _ => 0) := by
  have hconv : max (vecMaxAbs fun j =>
        (birankStep (fun _ _ : Fin 1 => (0 : ℝ)) 0 0 (fun _ => 0)
          (fun _ => 0) (fun _ => 0, fun _ => 0)).2 j -
        ((fun _ => 0, fun _ => 0) : (Fin 1 → ℝ) × (Fin 1 → ℝ)).2 j)
      (vecMaxAbs fun i =>
        (birankStep (fun _ _ : Fin 1 => (0 : ℝ)) 0 0 (fun _ => 0)
          (fun _ => 0) (fun _ => 0, fun _ => 0)).1 i -
        ((fun _ => 0, fun _ => 0) : (Fin 1 → ℝ) × (Fin 1 → ℝ)).1 i) < 1 := by
    rw [vecMaxAbs_one, vecMaxAbs_one]
    dsimp only
    rw [birankStep_snd_apply, birankStep_fst_apply]
    simp only [max_lt_iff, abs_lt, Fin.sum_univ_one]
    norm_num
  exact ⟨hconv,
    C3_break_returns_previous_iterates _ 0 0 _ _ 1 0 _ hconv⟩

/-! ### C2 -/

lemma rowDeg_cA : rowDeg [(2, 10)] [1, 2] [10] (0 : Fin 2) = 0 := by
  show (∑ j : Fin 1, Wmat [(2, 10)] [1, 2] [10] (0 : Fin 2) j) = 0
  rw [Fin.sum_univ_one]
  have h : Wcount [(2, 10)] [1, 2] [10] ((0 : Fin 2) : ℕ)
      ((0 : Fin 1) : ℕ) = 0 := by decide
  simp only [Wmat, h]
  norm_num

/-- C2 counterexample: person 1 has zero row-sum, yet its normalization
coefficient is not 0: `np.power(Du, -0.5, where=Du > 0)` leaves the masked
lane uninitialized, so any float can sit there — here, with memory content
1, the coefficient is 1. -/
theorem C2_counterexample :
    rowDeg [(2, 10)] [1, 2] [10] (0 : Fin 2) = 0 ∧
    normU [(2, 10)] [1, 2] [10] (fun _ => 1) (0 : Fin 2) = 1 := by
  refine ⟨rowDeg_cA, ?_⟩
  unfold normU
  rw [rowDeg_cA, if_neg (lt_irrefl 0)]

/-- C2 (amended): the masked lanes of the degree-normalization vectors are
left unspecified rather than set to 0; nevertheless, for every input `W`
and every content of the uninitialized lanes, a person with zero row-sum
has a zero row in `S` and a company with zero column-sum has a zero column
in `S`. -/
theorem C2_zero_degree_gives_zero_in_S (edges : List (ℕ × ℕ))
    (empIds compIds : List ℕ) (gU : Fin empIds.length → ℝ)
    (gP : Fin compIds.length → ℝ) :
    (∀ i, rowDeg edges empIds compIds i = 0 →
      ∀ j, Smat edges empIds compIds gU gP i j = 0) ∧
    (∀ j, colDeg edges empIds compIds j = 0 →
      ∀ i, Smat edges empIds compIds gU gP i j = 0) := by
  constructor
  · intro i hi j
    have hW : Wmat edges empIds compIds i j = 0 := by
      have h0 : ∀ j' ∈ Finset.univ, (0 : ℝ) ≤ Wmat edges empIds compIds i j' :=
        fun j' _ => Nat.cast_nonneg _
      exact (Finset.sum_eq_zero_iff_of_nonneg h0).mp hi j (Finset.mem_univ j)
    unfold Smat
    rw [hW]
    ring
  · intro j hj i
    have hW : Wmat edges empIds compIds i j = 0 := by
      have h0 : ∀ i' ∈ Finset.univ, (0 : ℝ) ≤ Wmat edges empIds compIds i' j :=
        fun i' _ => Nat.cast_nonneg _
      exact (Finset.sum_eq_zero_iff_of_nonneg h0).mp hj i (Finset.mem_univ i)
    unfold Smat
    rw [hW]
    ring

/-- C2 witness: the amended theorem applied to person 1 of the concrete
instance, with garbage value 1 in the masked lanes. -/
theorem C2_zero_degree_gives_zero_in_S_witness :
    rowDeg [(2, 10)] [1, 2] [10] (0 : Fin 2) = 0 ∧
    Smat [(2, 10)] [1, 2] [10] (fun _ => 1) (fun _ => 1) (0 : Fin 2)
        (0 : Fin 1) = 0 :=
  ⟨rowDeg_cA,
   (C2_zero_degree_gives_zero_in_S [(2, 10)] [1, 2] [10] (fun _ => 1)
     (fun _ => 1)).1 (0 : Fin 2) rowDeg_cA (0 : Fin 1)⟩

/-! ### C4 -/

/-- C4: a company with no projected edges (zero column in `W`) has score
exactly `(1 - alpha)/n` after every iteration `k ≥ 1` of the BiRank
recurrence, for all `alpha, beta ∈ (0, 1]` — constant across iterations,
its restart share. -/
theorem C4_isolated_company_keeps_restart_share (edges : List (ℕ × ℕ))
    (empIds compIds : List ℕ) (alpha beta : ℝ)
    (gU : Fin empIds.length → ℝ) (gP : Fin compIds.length → ℝ)
    (j : Fin compIds.length) (k : ℕ)
    (halpha : alpha ∈ Set.Ioc (0 : ℝ) 1)
    (hbeta : beta ∈ Set.Ioc (0 : ℝ) 1)
    (hdeg : colDeg edges empIds compIds j = 0) (hk : 1 ≤ k) :
    (birankIterate edges empIds compIds alpha beta gU gP k).2 j =
      (1 - alpha) / (compIds.length : ℝ) := by
  obtain ⟨k', rfl⟩ : ∃ k', k = k' + 1 := ⟨k - 1, by omega⟩
  have hS : ∀ i, Smat edges empIds compIds gU gP i j = 0 := by
    intro i
    have hW : Wmat edges empIds compIds i j = 0 := by
      have h0 : ∀ i' ∈ Finset.univ, (0 : ℝ) ≤ Wmat edges empIds compIds i' j :=
        fun i' _ => Nat.cast_nonneg _
      exact (Finset.sum_eq_zero_iff_of_nonneg h0).mp hdeg i (Finset.mem_univ i)
    unfold Smat
    rw [hW]
    ring
  unfold birankIterate
  rw [Function.iterate_succ_apply', birankStep_snd_apply]
  simp only [hS, zero_mul, Finset.sum_const_zero, mul_zero, zero_add]
  rw [show uniformVec compIds.length j = 1 / (compIds.length : ℝ) from rfl,
    mul_one_div]

/-- C4 witness: the theorem applied to the isolated company 21 of the
concrete instance, one iteration, `alpha = beta = 1/2`. -/
theorem C4_isolated_company_keeps_restart_share_witness :
    ((1 : ℝ) / 2 ∈ Set.Ioc (0 : ℝ) 1) ∧
    colDeg [(10, 20)] [10] [20, 21] (1 : Fin 2) = 0 ∧ 1 ≤ 1 ∧
    (birankIterate [(10, 20)] [10] [20, 21] (1 / 2) (1 / 2) (fun _ => 0)
        (fun _ => 0) 1).2 (1 : Fin 2) =
      (1 - 1 / 2) / ((([20, 21] : List ℕ).length : ℕ) : ℝ) :=
  ⟨by rw [Set.mem_Ioc]; norm_num, colDeg_e2_1, le_refl 1,
   C4_isolated_company_keeps_restart_share [(10, 20)] [10] [20, 21] (1 / 2)
     (1 / 2) (fun _ => 0) (fun _ => 0) (1 : Fin 2) 1
     (by rw [Set.mem_Ioc]; norm_num) (by rw [Set.mem_Ioc]; norm_num)
     colDeg_e2_1 (le_refl 1)⟩

/-! ### C10 -/

lemma indexOf_eq_val_iff {l : List ℕ} (hnd : l.Nodup) {a : ℕ} (ha : a ∈ l)
    (i : Fin l.length) : l.indexOf a = (i : ℕ) ↔ a = l.get i := by
  constructor
  · intro h
    have hlt : l.indexOf a < l.length := List.indexOf_lt_length.mpr ha
    have hg := List.indexOf_get hlt
    rw [← hg]
    congr 1
    exact Fin.ext h
  · intro h
    subst h
    rw [List.get_indexOf hnd]

lemma edgeContrib_eq_iff (empIds compIds : List ℕ) (hemp : empIds.Nodup)
    (hcomp : compIds.Nodup) (hdisj : ∀ a ∈ empIds, a ∉ compIds)
    (i : Fin empIds.length) (j : Fin compIds.length) (s t : ℕ) :
    edgeContrib empIds compIds s t = some ((i : ℕ), (j : ℕ)) ↔
      ((s = empIds.get i ∧ t = compIds.get j) ∨
       (t = empIds.get i ∧ s = compIds.get j)) := by
  unfold edgeContrib
  split_ifs with h1 h2
  · simp only [Option.some.injEq, Prod.mk.injEq]
    rw [indexOf_eq_val_iff hemp h1.1 i, indexOf_eq_val_iff hcomp h1.2 j]
    constructor
    · exact fun h => Or.inl h
    · rintro (h | h)
      · exact h
      · exfalso
        apply hdisj s h1.1
        rw [h.2]
        exact List.get_mem _ _ _
  · simp only [Option.some.injEq, Prod.mk.injEq]
    rw [indexOf_eq_val_iff hemp h2.1 i, indexOf_eq_val_iff hcomp h2.2 j]
    constructor
    · exact fun h => Or.inr h
    · rintro (h | h)
      · exfalso
        apply h1
        constructor
        · rw [h.1]; exact List.get_mem _ _ _
        · rw [h.2]; exact List.get_mem _ _ _
      · exact h
  · constructor
    · intro h
      cases h
    · rintro (h | h)
      · exfalso
        apply h1
        constructor
        · rw [h.1]; exact List.get_mem _ _ _
        · rw [h.2]; exact List.get_mem _ _ _
      · exfalso
        apply h2
        constructor
        · rw [h.1]; exact List.get_mem _ _ _
        · rw [h.2]; exact List.get_mem _ _ _

/-- C10: with distinct Profile ids, distinct Company ids, and the two label
sets disjoint (Profile and Company are distinct labels), `W[i, j]` equals
the number of streamed relationships whose endpoints are person `i` and
company `j` in either direction, each contributing exactly 1.0 — no stored
projection weight is consulted, and a relationship whose endpoints are not
one known person plus one known company contributes nothing. -/
theorem C10_W_entries_count_matching_edges (edges : List (ℕ × ℕ))
    (empIds compIds : List ℕ) (hemp : empIds.Nodup) (hcomp : compIds.Nodup)
    (hdisj : ∀ a ∈ empIds, a ∉ compIds) (i : Fin empIds.length)
    (j : Fin compIds.length) :
    Wmat edges empIds compIds i j =
      (specPairCount edges empIds compIds i j : ℝ) := by
  unfold Wmat Wcount specPairCount
  norm_cast
  congr 1
  apply List.filter_congr
  intro e he
  rw [decide_eq_decide]
  exact edgeContrib_eq_iff empIds compIds hemp hcomp hdisj i j e.1 e.2

/-- C10 witness: the theorem applied to a stream containing a forward edge,
a reversed edge, an edge with unknown endpoints and a company–company
edge. -/
theorem C10_W_entries_count_matching_edges_witness :
    ([1, 2] : List ℕ).Nodup ∧ ([10] : List ℕ).Nodup ∧
    (∀ a ∈ ([1, 2] : List ℕ), a ∉ ([10] : List ℕ)) ∧
    Wmat [(1, 10), (10, 2), (3, 4), (10, 10)] [1, 2] [10] (1 : Fin 2)
        (0 : Fin 1) =
      (specPairCount [(1, 10), (10, 2), (3, 4), (10, 10)] [1, 2] [10]
        (1 : Fin 2) (0 : Fin 1) : ℝ) :=
  ⟨by decide, by decide, by decide,
   C10_W_entries_count_matching_edges [(1, 10), (10, 2), (3, 4), (10, 10)]
     [1, 2] [10] (by decide) (by decide) (by decide) (1 : Fin 2)
     (0 : Fin 1)⟩

/-! ### C5: the two-person, three-company scenario -/

lemma invSqrtPos_two_mul_self : invSqrtPos 2 * invSqrtPos 2 = 1 / 2 := by
  unfold invSqrtPos
  rw [← mul_inv, Real.mul_self_sqrt (by norm_num : (0 : ℝ) ≤ 2)]
  norm_num

lemma invSqrtPos_two_pos : 0 < invSqrtPos 2 := by
  unfold invSqrtPos
  exact inv_pos.mpr (Real.sqrt_pos.mpr (by norm_num))

lemma invSqrtPos_two_lt_one : invSqrtPos 2 < 1 := by
  have h : 1 < Real.sqrt 2 := by
    have h2 := Real.sqrt_lt_sqrt (by norm_num : (0 : ℝ) ≤ 1)
      (by norm_num : (1 : ℝ) < 2)
    rwa [Real.sqrt_one] at h2
  exact inv_lt_one_of_one_lt₀ h

lemma Wmat_e5_00 : Wmat edges5 emp5 comp5 (0 : Fin 2) (0 : Fin 3) = 1 := by
  have h : Wcount edges5 emp5 comp5 ((0 : Fin 2) : ℕ) ((0 : Fin 3) : ℕ) = 1 := by
    decide
  simp only [Wmat, h]
  norm_num

lemma Wmat_e5_01 : Wmat edges5 emp5 comp5 (0 : Fin 2) (1 : Fin 3) = 1 := by
  have h : Wcount edges5 emp5 comp5 ((0 : Fin 2) : ℕ) ((1 : Fin 3) : ℕ) = 1 := by
    decide
  simp only [Wmat, h]
  norm_num

lemma Wmat_e5_02 : Wmat edges5 emp5 comp5 (0 : Fin 2) (2 : Fin 3) = 0 := by
  have h : Wcount edges5 emp5 comp5 ((0 : Fin 2) : ℕ) ((2 : Fin 3) : ℕ) = 0 := by
    decide
  simp only [Wmat, h]
  norm_num

lemma Wmat_e5_10 : Wmat edges5 emp5 comp5 (1 : Fin 2) (0 : Fin 3) = 0 := by
  have h : Wcount edges5 emp5 comp5 ((1 : Fin 2) : ℕ) ((0 : Fin 3) : ℕ) = 0 := by
    decide
  simp only [Wmat, h]
  norm_num

lemma Wmat_e5_11 : Wmat edges5 emp5 comp5 (1 : Fin 2) (1 : Fin 3) = 1 := by
  have h : Wcount edges5 emp5 comp5 ((1 : Fin 2) : ℕ) ((1 : Fin 3) : ℕ) = 1 := by
    decide
  simp only [Wmat, h]
  norm_num

lemma Wmat_e5_12 : Wmat edges5 emp5 comp5 (1 : Fin 2) (2 : Fin 3) = 1 := by
  have h : Wcount edges5 emp5 comp5 ((1 : Fin 2) : ℕ) ((2 : Fin 3) : ℕ) = 1 := by
    decide
  simp only [Wmat, h]
  norm_num

lemma rowDeg_e5_0 : rowDeg edges5 emp5 comp5 (0 : Fin 2) = 2 := by
  show (∑ j : Fin 3, Wmat edges5 emp5 comp5 (0 : Fin 2) j) = 2
  rw [Fin.sum_univ_three, Wmat_e5_00, Wmat_e5_01, Wmat_e5_02]
  norm_num

lemma rowDeg_e5_1 : rowDeg edges5 emp5 comp5 (1 : Fin 2) = 2 := by
  show (∑ j : Fin 3, Wmat edges5 emp5 comp5 (1 : Fin 2) j) = 2
  rw [Fin.sum_univ_three, Wmat_e5_10, Wmat_e5_11, Wmat_e5_12]
  norm_num

lemma colDeg_e5_0 : colDeg edges5 emp5 comp5 (0 : Fin 3) = 1 := by
  show (∑ i : Fin 2, Wmat edges5 emp5 comp5 i (0 : Fin 3)) = 1
  rw [Fin.sum_univ_two, Wmat_e5_00, Wmat_e5_10]
  norm_num

lemma colDeg_e5_1 : colDeg edges5 emp5 comp5 (1 : Fin 3) = 2 := by
  show (∑ i : Fin 2, Wmat edges5 emp5 comp5 i (1 : Fin 3)) = 2
  rw [Fin.sum_univ_two, Wmat_e5_01, Wmat_e5_11]
  norm_num

lemma colDeg_e5_2 : colDeg edges5 emp5 comp5 (2 : Fin 3) = 1 := by
  show (∑ i : Fin 2, Wmat edges5 emp5 comp5 i (2 : Fin 3)) = 1
  rw [Fin.sum_univ_two, Wmat_e5_02, Wmat_e5_12]
  norm_num

lemma normU_e5_0 (gU : Fin 2 → ℝ) :
    normU edges5 emp5 comp5 gU (0 : Fin 2) = invSqrtPos 2 := by
  unfold normU
  rw [rowDeg_e5_0, if_pos (by norm_num : (0 : ℝ) < 2)]

lemma normU_e5_1 (gU : Fin 2 → ℝ) :
    normU edges5 emp5 comp5 gU (1 : Fin 2) = invSqrtPos 2 := by
  unfold normU
  rw [rowDeg_e5_1, if_pos (by norm_num : (0 : ℝ) < 2)]

lemma normP_e5_0 (gP : Fin 3 → ℝ) :
    normP edges5 emp5 comp5 gP (0 : Fin 3) = 1 := by
  unfold normP
  rw [colDeg_e5_0, if_pos (by norm_num : (0 : ℝ) < 1), invSqrtPos_one]

lemma normP_e5_1 (gP : Fin 3 → ℝ) :
    normP edges5 emp5 comp5 gP (1 : Fin 3) = invSqrtPos 2 := by
  unfold normP
  rw [colDeg_e5_1, if_pos (by norm_num : (0 : ℝ) < 2)]

lemma normP_e5_2 (gP : Fin 3 → ℝ) :
    normP edges5 emp5 comp5 gP (2 : Fin 3) = 1 := by
  unfold normP
  rw [colDeg_e5_2, if_pos (by norm_num : (0 : ℝ) < 1), invSqrtPos_one]

lemma Smat_e5_00 (gU : Fin 2 → ℝ) (gP : Fin 3 → ℝ) :
    Smat edges5 emp5 comp5 gU gP (0 : Fin 2) (0 : Fin 3) = invSqrtPos 2 := by
  unfold Smat
  rw [Wmat_e5_00, normU_e5_0, normP_e5_0]
  ring

lemma Smat_e5_01 (gU : Fin 2 → ℝ) (gP : Fin 3 → ℝ) :
    Smat edges5 emp5 comp5 gU gP (0 : Fin 2) (1 : Fin 3) = 1 / 2 := by
  unfold Smat
  rw [Wmat_e5_01, normU_e5_0, normP_e5_1, one_mul, invSqrtPos_two_mul_self]

lemma Smat_e5_02 (gU : Fin 2 → ℝ) (gP : Fin 3 → ℝ) :
    Smat edges5 emp5 comp5 gU gP (0 : Fin 2) (2 : Fin 3) = 0 := by
  unfold Smat
  rw [Wmat_e5_02]
  ring

lemma Smat_e5_10 (gU : Fin 2 → ℝ) (gP : Fin 3 → ℝ) :
    Smat edges5 emp5 comp5 gU gP (1 : Fin 2) (0 : Fin 3) = 0 := by
  unfold Smat
  rw [Wmat_e5_10]
  ring

lemma Smat_e5_11 (gU : Fin 2 → ℝ) (gP : Fin 3 → ℝ) :
    Smat edges5 emp5 comp5 gU gP (1 : Fin 2) (1 : Fin 3) = 1 / 2 := by
  unfold Smat
  rw [Wmat_e5_11, normU_e5_1, normP_e5_1, one_mul, invSqrtPos_two_mul_self]

lemma Smat_e5_12 (gU : Fin 2 → ℝ) (gP : Fin 3 → ℝ) :
    Smat edges5 emp5 comp5 gU gP (1 : Fin 2) (2 : Fin 3) = invSqrtPos 2 := by
  unfold Smat
  rw [Wmat_e5_12, normU_e5_1, normP_e5_2]
  ring

lemma step_e5_p0 (gU : Fin 2 → ℝ) (gP : Fin 3 → ℝ)
    (st : (Fin 2 → ℝ) × (Fin 3 → ℝ)) :
    (birankStep (Smat edges5 emp5 comp5 gU gP) (85 / 100) (85 / 100)
        (uniformVec emp5.length) (uniformVec comp5.length) st).2 (0 : Fin 3) =
      85 / 100 * (invSqrtPos 2 * st.1 (0 : Fin 2)) + 1 / 20 := by
  show (85 : ℝ) / 100 *
      (∑ i : Fin 2, Smat edges5 emp5 comp5 gU gP i (0 : Fin 3) * st.1 i) +
      (1 - 85 / 100) * uniformVec comp5.length (0 : Fin 3) =
    85 / 100 * (invSqrtPos 2 * st.1 (0 : Fin 2)) + 1 / 20
  rw [Fin.sum_univ_two, Smat_e5_00, Smat_e5_10]
  have h : uniformVec comp5.length (0 : Fin 3) = 1 / 3 := by
    norm_num [uniformVec, comp5]
  rw [h]
  ring

lemma step_e5_p1 (gU : Fin 2 → ℝ) (gP : Fin 3 → ℝ)
    (st : (Fin 2 → ℝ) × (Fin 3 → ℝ)) :
    (birankStep (Smat edges5 emp5 comp5 gU gP) (85 / 100) (85 / 100)
        (uniformVec emp5.length) (uniformVec comp5.length) st).2 (1 : Fin 3) =
      85 / 100 * (1 / 2 * st.1 (0 : Fin 2) + 1 / 2 * st.1 (1 : Fin 2)) +
        1 / 20 := by
  show (85 : ℝ) / 100 *
      (∑ i : Fin 2, Smat edges5 emp5 comp5 gU gP i (1 : Fin 3) * st.1 i) +
      (1 - 85 / 100) * uniformVec comp5.length (1 : Fin 3) =
    85 / 100 * (1 / 2 * st.1 (0 : Fin 2) + 1 / 2 * st.1 (1 : Fin 2)) + 1 / 20
  rw [Fin.sum_univ_two, Smat_e5_01, Smat_e5_11]
  have h : uniformVec comp5.length (1 : Fin 3) = 1 / 3 := by
    norm_num [uniformVec, comp5]
  rw [h]
  ring

lemma step_e5_p2 (gU : Fin 2 → ℝ) (gP : Fin 3 → ℝ)
    (st : (Fin 2 → ℝ) × (Fin 3 → ℝ)) :
    (birankStep (Smat edges5 emp5 comp5 gU gP) (85 / 100) (85 / 100)
        (uniformVec emp5.length) (uniformVec comp5.length) st).2 (2 : Fin 3) =
      85 / 100 * (invSqrtPos 2 * st.1 (1 : Fin 2)) + 1 / 20 := by
  show (85 : ℝ) / 100 *
      (∑ i : Fin 2, Smat edges5 emp5 comp5 gU gP i (2 : Fin 3) * st.1 i) +
      (1 - 85 / 100) * uniformVec comp5.length (2 : Fin 3) =
    85 / 100 * (invSqrtPos 2 * st.1 (1 : Fin 2)) + 1 / 20
  rw [Fin.sum_univ_two, Smat_e5_02, Smat_e5_12]
  have h : uniformVec comp5.length (2 : Fin 3) = 1 / 3 := by
    norm_num [uniformVec, comp5]
  rw [h]
  ring

lemma step_e5_u0 (gU : Fin 2 → ℝ) (gP : Fin 3 → ℝ)
    (st : (Fin 2 → ℝ) × (Fin 3 → ℝ)) :
    (birankStep (Smat edges5 emp5 comp5 gU gP) (85 / 100) (85 / 100)
        (uniformVec emp5.length) (uniformVec comp5.length) st).1 (0 : Fin 2) =
      85 / 100 * (invSqrtPos 2 *
          (birankStep (Smat edges5 emp5 comp5 gU gP) (85 / 100) (85 / 100)
            (uniformVec emp5.length) (uniformVec comp5.length) st).2
            (0 : Fin 3) +
        1 / 2 *
          (birankStep (Smat edges5 emp5 comp5 gU gP) (85 / 100) (85 / 100)
            (uniformVec emp5.length) (uniformVec comp5.length) st).2
            (1 : Fin 3)) + 3 / 40 := by
  show (85 : ℝ) / 100 *
      (∑ j : Fin 3, Smat edges5 emp5 comp5 gU gP (0 : Fin 2) j *
        (birankStep (Smat edges5 emp5 comp5 gU gP) (85 / 100) (85 / 100)
          (uniformVec emp5.length) (uniformVec comp5.length) st).2 j) +
      (1 - 85 / 100) * uniformVec emp5.length (0 : Fin 2) = _
  rw [Fin.sum_univ_three, Smat_e5_00, Smat_e5_01, Smat_e5_02]
  have h : uniformVec emp5.length (0 : Fin 2) = 1 / 2 := by
    norm_num [uniformVec, emp5]
  rw [h]
  ring

lemma step_e5_u1 (gU : Fin 2 → ℝ) (gP : Fin 3 → ℝ)
    (st : (Fin 2 → ℝ) × (Fin 3 → ℝ)) :
    (birankStep (Smat edges5 emp5 comp5 gU gP) (85 / 100) (85 / 100)
        (uniformVec emp5.length) (uniformVec comp5.length) st).1 (1 : Fin 2) =
      85 / 100 * (1 / 2 *
          (birankStep (Smat edges5 emp5 comp5 gU gP) (85 / 100) (85 / 100)
            (uniformVec emp5.length) (uniformVec comp5.length) st).2
            (1 : Fin 3) +
        invSqrtPos 2 *
          (birankStep (Smat edges5 emp5 comp5 gU gP) (85 / 100) (85 / 100)
            (uniformVec emp5.length) (uniformVec comp5.length) st).2
            (2 : Fin 3)) + 3 / 40 := by
  show (85 : ℝ) / 100 *
      (∑ j : Fin 3, Smat edges5 emp5 comp5 gU gP (1 : Fin 2) j *
        (birankStep (Smat edges5 emp5 comp5 gU gP) (85 / 100) (85 / 100)
          (uniformVec emp5.length) (uniformVec comp5.length) st).2 j) +
      (1 - 85 / 100) * uniformVec emp5.length (1 : Fin 2) = _
  rw [Fin.sum_univ_three, Smat_e5_10, Smat_e5_11, Smat_e5_12]
  have h : uniformVec emp5.length (1 : Fin 2) = 1 / 2 := by
    norm_num [uniformVec, emp5]
  rw [h]
  ring

lemma step_e5_preserves (gU : Fin 2 → ℝ) (gP : Fin 3 → ℝ)
    (st : (Fin 2 → ℝ) × (Fin 3 → ℝ))
    (hu01 : st.1 (0 : Fin 2) = st.1 (1 : Fin 2))
    (hu0 : 3 / 40 ≤ st.1 (0 : Fin 2)) :
    (birankStep (Smat edges5 emp5 comp5 gU gP) (85 / 100) (85 / 100)
        (uniformVec emp5.length) (uniformVec comp5.length) st).1 (0 : Fin 2) =
      (birankStep (Smat edges5 emp5 comp5 gU gP) (85 / 100) (85 / 100)
        (uniformVec emp5.length) (uniformVec comp5.length) st).1 (1 : Fin 2) ∧
    3 / 40 ≤ (birankStep (Smat edges5 emp5 comp5 gU gP) (85 / 100) (85 / 100)
        (uniformVec emp5.length) (uniformVec comp5.length) st).1 (0 : Fin 2) ∧
    (birankStep (Smat edges5 emp5 comp5 gU gP) (85 / 100) (85 / 100)
        (uniformVec emp5.length) (uniformVec comp5.length) st).2 (0 : Fin 3) =
      (birankStep (Smat edges5 emp5 comp5 gU gP) (85 / 100) (85 / 100)
        (uniformVec emp5.length) (uniformVec comp5.length) st).2 (2 : Fin 3) ∧
    0 ≤ (birankStep (Smat edges5 emp5 comp5 gU gP) (85 / 100) (85 / 100)
        (uniformVec emp5.length) (uniformVec comp5.length) st).2 (0 : Fin 3) ∧
    (birankStep (Smat edges5 emp5 comp5 gU gP) (85 / 100) (85 / 100)
        (uniformVec emp5.length) (uniformVec comp5.length) st).2 (0 : Fin 3) <
      (birankStep (Smat edges5 emp5 comp5 gU gP) (85 / 100) (85 / 100)
        (uniformVec emp5.length) (uniformVec comp5.length) st).2 (1 : Fin 3) := by
  have hq2 := invSqrtPos_two_mul_self
  have hqpos := invSqrtPos_two_pos
  have hqlt := invSqrtPos_two_lt_one
  have hapos : (0 : ℝ) < st.1 (0 : Fin 2) := lt_of_lt_of_le (by norm_num) hu0
  have hp0 := step_e5_p0 gU gP st
  have hp1 := step_e5_p1 gU gP st
  have hp2 := step_e5_p2 gU gP st
  have hp02 : (birankStep (Smat edges5 emp5 comp5 gU gP) (85 / 100)
      (85 / 100) (uniformVec emp5.length) (uniformVec comp5.length) st).2
        (0 : Fin 3) =
      (birankStep (Smat edges5 emp5 comp5 gU gP) (85 / 100) (85 / 100)
        (uniformVec emp5.length) (uniformVec comp5.length) st).2 (2 : Fin 3) := by
    rw [hp0, hp2, hu01]
  have hp0nn : (0 : ℝ) ≤ (birankStep (Smat edges5 emp5 comp5 gU gP)
      (85 / 100) (85 / 100) (uniformVec emp5.length)
      (uniformVec comp5.length) st).2 (0 : Fin 3) := by
    rw [hp0]
    nlinarith [mul_pos hqpos hapos]
  have hp1nn : (0 : ℝ) ≤ (birankStep (Smat edges5 emp5 comp5 gU gP)
      (85 / 100) (85 / 100) (uniformVec emp5.length)
      (uniformVec comp5.length) st).2 (1 : Fin 3) := by
    rw [hp1]
    nlinarith [hapos, hu01]
  have hlt : (birankStep (Smat edges5 emp5 comp5 gU gP) (85 / 100)
      (85 / 100) (uniformVec emp5.length) (uniformVec comp5.length) st).2
        (0 : Fin 3) <
      (birankStep (Smat edges5 emp5 comp5 gU gP) (85 / 100) (85 / 100)
        (uniformVec emp5.length) (uniformVec comp5.length) st).2 (1 : Fin 3) := by
    rw [hp0, hp1, ← hu01]
    nlinarith [mul_pos (sub_pos.mpr hqlt) hapos]
  refine ⟨?_, ?_, hp02, hp0nn, hlt⟩
  · rw [step_e5_u0 gU gP st, step_e5_u1 gU gP st, hp02]
    ring
  · rw [step_e5_u0 gU gP st]
    nlinarith [mul_nonneg hqpos.le hp0nn, hp1nn]

/-- C5: on the two-person, three-company instance (projected edges P1–C1,
P1–C2, P2–C2, P2–C3, degrees Du = [2,2], Dp = [1,2,1]) the BiRank engine
run with `alpha = beta = 0.85`, `max_iter = 20` and the default tolerance
returns a final score for C2 strictly greater than the final scores of
both C1 and C3. -/
theorem C5_central_company_outranks_peripheral :
    (birankFinal edges5 emp5 comp5 (85 / 100) (85 / 100) 20 defaultTol
        (fun _ => 0) (fun _ => 0)).2 (1 : Fin 3) >
      (birankFinal edges5 emp5 comp5 (85 / 100) (85 / 100) 20 defaultTol
        (fun _ => 0) (fun _ => 0)).2 (0 : Fin 3) ∧
    (birankFinal edges5 emp5 comp5 (85 / 100) (85 / 100) 20 defaultTol
        (fun _ => 0) (fun _ => 0)).2 (1 : Fin 3) >
      (birankFinal edges5 emp5 comp5 (85 / 100) (85 / 100) 20 defaultTol
        (fun _ => 0) (fun _ => 0)).2 (2 : Fin 3) := by
  have hfirst := step_e5_preserves ((fun _ => 0) : Fin emp5.length → ℝ)
    ((fun _ => 0) : Fin comp5.length → ℝ)
    (uniformVec emp5.length, uniformVec comp5.length) rfl
    (by norm_num [uniformVec, emp5])
  have hp1val : (birankStep (Smat edges5 emp5 comp5 (fun _ => 0)
      (fun _ => 0)) (85 / 100) (85 / 100) (uniformVec emp5.length)
      (uniformVec comp5.length)
      (uniformVec emp5.length, uniformVec comp5.length)).2 (1 : Fin 3) =
      19 / 40 := by
    rw [step_e5_p1]
    norm_num [uniformVec, emp5]
  have hnb : ¬ max
      (vecMaxAbs fun j =>
        (birankStep (Smat edges5 emp5 comp5 (fun _ => 0) (fun _ => 0))
          (85 / 100) (85 / 100) (uniformVec emp5.length)
          (uniformVec comp5.length)
          (uniformVec emp5.length, uniformVec comp5.length)).2 j -
        (uniformVec emp5.length, uniformVec comp5.length).2 j)
      (vecMaxAbs fun i =>
        (birankStep (Smat edges5 emp5 comp5 (fun _ => 0) (fun _ => 0))
          (85 / 100) (85 / 100) (uniformVec emp5.length)
          (uniformVec comp5.length)
          (uniformVec emp5.length, uniformVec comp5.length)).1 i -
        (uniformVec emp5.length, uniformVec comp5.length).1 i) < defaultTol := by
    apply not_lt.mpr
    have hval : |(fun j =>
        (birankStep (Smat edges5 emp5 comp5 (fun _ => 0) (fun _ => 0))
          (85 / 100) (85 / 100) (uniformVec emp5.length)
          (uniformVec comp5.length)
          (uniformVec emp5.length, uniformVec comp5.length)).2 j -
        (uniformVec emp5.length, uniformVec comp5.length).2 j) (1 : Fin 3)| =
        17 / 120 := by
      dsimp only
      rw [hp1val]
      have h3 : uniformVec comp5.length (1 : Fin 3) = 1 / 3 := by
        norm_num [uniformVec, comp5]
      rw [h3, abs_of_nonneg (by norm_num)]
      norm_num
    have habs := abs_le_vecMaxAbs (fun j =>
        (birankStep (Smat edges5 emp5 comp5 (fun _ => 0) (fun _ => 0))
          (85 / 100) (85 / 100) (uniformVec emp5.length)
          (uniformVec comp5.length)
          (uniformVec emp5.length, uniformVec comp5.length)).2 j -
        (uniformVec emp5.length, uniformVec comp5.length).2 j) (1 : Fin 3)
    rw [hval] at habs
    exact le_trans (by norm_num [defaultTol]) (le_trans habs (le_max_left _ _))
  have hrw : birankFinal edges5 emp5 comp5 (85 / 100) (85 / 100) 20
      defaultTol (fun _ => 0) (fun _ => 0) =
      birankLoop (Smat edges5 emp5 comp5 (fun _ => 0) (fun _ => 0))
        (85 / 100) (85 / 100) (uniformVec emp5.length)
        (uniformVec comp5.length) defaultTol 19
        (birankStep (Smat edges5 emp5 comp5 (fun _ => 0) (fun _ => 0))
          (85 / 100) (85 / 100) (uniformVec emp5.length)
          (uniformVec comp5.length)
          (uniformVec emp5.length, uniformVec comp5.length)) := by
    unfold birankFinal
    rw [show (20 : ℕ) = 19 + 1 by norm_num]
    exact birankLoop_go _ _ _ _ _ _ _ _ hnb
  have hinv := birankLoop_inv
    (Smat edges5 emp5 comp5 (fun _ => 0) (fun _ => 0)) (85 / 100) (85 / 100)
    (uniformVec emp5.length) (uniformVec comp5.length) defaultTol
    (fun st => st.1 (0 : Fin 2) = st.1 (1 : Fin 2) ∧
      3 / 40 ≤ st.1 (0 : Fin 2) ∧
      st.2 (0 : Fin 3) = st.2 (2 : Fin 3) ∧
      0 ≤ st.2 (0 : Fin 3) ∧
      st.2 (0 : Fin 3) < st.2 (1 : Fin 3))
    (fun st h => step_e5_preserves (fun _ => 0) (fun _ => 0) st h.1 h.2.1)
    19 _ hfirst
  rw [hrw]
  refine ⟨hinv.2.2.2.2, ?_⟩
  rw [← hinv.2.2.1]
  exact hinv.2.2.2.2

end Scrapeco
